import Mathlib

/-!
Verification development for the dlcommon download engine.

The Rust sources (src/file.rs, src/http.rs, src/operation.rs) are embedded
shallowly: the filesystem is an association list from paths to entries,
randomness is an explicit sampler argument, the HTTP transport is an
environment carrying the responses the client would have produced, and
fallible I/O actions take explicit failure-injection flags.  External
collaborators (the mailparse header parser, reqwest, tokio, indicatif) are
modelled at their interface boundary, as the design document scopes them.
-/

namespace Dlcommon

/-! ### Byte and string utilities

`percent_encoding::percent_decode_str` and the standard string method that
removes a leading tag, together with strict UTF-8 encoding/decoding matching
`Cow::decode_utf8` (which rejects invalid UTF-8).  Strings are carried as
Lean `String`s; percent-decoding operates on their UTF-8 byte sequence. -/

/-- Value of an ASCII hex digit byte, `None` otherwise. -/
def hexValByte (b : Nat) : Option Nat :=
  if 48 ≤ b ∧ b ≤ 57 then some (b - 48)
  else if 65 ≤ b ∧ b ≤ 70 then some (b - 55)
  else if 97 ≤ b ∧ b ≤ 102 then some (b - 87)
  else none

/-- Percent-decoding on bytes: `%XY` with two hex digits becomes one byte,
anything else passes through unchanged (the `percent_encoding` crate leaves
malformed escapes as-is). -/
def percentDecode : List Nat → List Nat
  | [] => []
  | 37 :: h1 :: h2 :: rest =>
    match hexValByte h1, hexValByte h2 with
    | some a, some b => (16 * a + b) :: percentDecode rest
    | _, _ => 37 :: percentDecode (h1 :: h2 :: rest)
  | b :: rest => b :: percentDecode rest

/-- Is `b` a UTF-8 continuation byte (`10xxxxxx`)? -/
def contByte (b : Nat) : Bool := decide (128 ≤ b ∧ b < 192)

/-- Valid first continuation byte after a 3-byte lead (rejects overlong
forms after `E0` and surrogates after `ED`). -/
def lead3ok (b c1 : Nat) : Bool :=
  if b = 224 then decide (160 ≤ c1 ∧ c1 < 192)
  else if b = 237 then decide (128 ≤ c1 ∧ c1 < 160)
  else contByte c1

/-- Valid first continuation byte after a 4-byte lead (rejects overlong
forms after `F0` and values above U+10FFFF after `F4`). -/
def lead4ok (b c1 : Nat) : Bool :=
  if b = 240 then decide (144 ≤ c1 ∧ c1 < 192)
  else if b = 244 then decide (128 ≤ c1 ∧ c1 < 144)
  else contByte c1

/-- Strict UTF-8 decoding of a byte sequence, as Rust's `from_utf8`:
rejects overlong encodings, surrogates and values above U+10FFFF. -/
def utf8Decode : List Nat → Option (List Char)
  | [] => some []
  | b :: rest =>
    if b < 128 then (utf8Decode rest).map (fun cs => Char.ofNat b :: cs)
    else if b < 194 then none
    else if b < 224 then
      match rest with
      | c1 :: rest2 =>
        if contByte c1 then
          (utf8Decode rest2).map (fun cs => Char.ofNat ((b - 192) * 64 + (c1 - 128)) :: cs)
        else none
      | [] => none
    else if b < 240 then
      match rest with
      | c1 :: c2 :: rest3 =>
        if lead3ok b c1 && contByte c2 then
          (utf8Decode rest3).map
            (fun cs => Char.ofNat ((b - 224) * 4096 + (c1 - 128) * 64 + (c2 - 128)) :: cs)
        else none
      | _ => none
    else if b < 245 then
      match rest with
      | c1 :: c2 :: c3 :: rest4 =>
        if lead4ok b c1 && contByte c2 && contByte c3 then
          (utf8Decode rest4).map
            (fun cs => Char.ofNat
              ((b - 240) * 262144 + (c1 - 128) * 4096 + (c2 - 128) * 64 + (c3 - 128)) :: cs)
        else none
      | _ => none
    else none

/-- UTF-8 encoding of one scalar value. -/
def utf8EncodeChar (c : Char) : List Nat :=
  let n := c.toNat
  if n < 128 then [n]
  else if n < 2048 then [192 + n / 64, 128 + n % 64]
  else if n < 65536 then [224 + n / 4096, 128 + (n / 64) % 64, 128 + n % 64]
  else [240 + n / 262144, 128 + (n / 4096) % 64, 128 + (n / 64) % 64, 128 + n % 64]

/-- UTF-8 encoding of a string. -/
def utf8Encode (s : String) : List Nat :=
  s.data.foldr (fun c acc => utf8EncodeChar c ++ acc) []

/-- `percent_decode_str(s).decode_utf8().ok()`: percent-decode the UTF-8
bytes of `s` and re-decode them strictly. -/
def percentDecodeUtf8 (s : String) : Option String :=
  (utf8Decode (percentDecode (utf8Encode s))).map (fun cs => String.mk cs)

/-- The standard leading-tag removal on character lists: remove the leading
characters `pre` from `s`, or fail. -/
def dropPre : List Char → List Char → Option (List Char)
  | [], s => some s
  | _ :: _, [] => none
  | p :: ps, c :: cs => if p = c then dropPre ps cs else none

/-- The characters of the RFC 5987 charset tag stripped from a `filename*`
parameter value (spelled out character by character). -/
def utf8TagChars : List Char := ['U', 'T', 'F', '-', '8', '\'', '\'']

/-! ### Content-disposition (src/http.rs)

`mailparse::parse_content_disposition` is an external collaborator; it is
modelled at its interface: a disposition type plus a parameter map, which is
what `filename_from_disposition` consumes. -/

/-- `mailparse::DispositionType`. -/
inductive DispositionType where
  | inlined
  | attachment
  | formdata
  | extension (s : String)
deriving DecidableEq

/-- The result of `mailparse::parse_content_disposition`: disposition type
and parameter map (association list, first binding wins as in a map). -/
structure ParsedContentDisposition where
  disposition : DispositionType
  params : List (String × String)
deriving DecidableEq

/-- Map lookup on the parameter list. -/
def getParam : List (String × String) → String → Option String
  | [], _ => none
  | (k, v) :: rest, key => if k = key then some v else getParam rest key

/-- Embeds `filename_from_disposition` (src/http.rs:25): on an attachment
disposition, prefer the `filename*` parameter after stripping the `UTF-8`
charset tag and percent-decoding; fall back to the plain `filename`
parameter percent-decoded; otherwise error.  The Rust error strings
interpolate the raw header, which the parsed model does not carry, so the
messages here are the fixed prefixes. -/
def filename_from_disposition (x : ParsedContentDisposition) : Except String String :=
  match x.disposition with
  | .attachment =>
    match ((getParam x.params "filename*").bind
        (fun i => (dropPre utf8TagChars i.data).map (fun cs => String.mk cs))).bind
        percentDecodeUtf8 with
    | some s => .ok s
    | none =>
      match (getParam x.params "filename").bind percentDecodeUtf8 with
      | some s => .ok s
      | none => .error "Could not parse a filename from the content-disposition header"
  | _ => .error "Content-disposition is expected to be an attachment with filename param."

/-! ### Download configuration (src/http.rs) -/

/-- `Outcome` (src/http.rs:50). -/
inductive Outcome where
  | download (n : Nat)
  | redownload (n : Nat)
  | existing
deriving DecidableEq

/-- `OverwriteBehaviour` (src/http.rs:57); `never` is the Rust default. -/
inductive OverwriteBehaviour where
  | always
  | checkLength
  | never
  | fail
deriving DecidableEq

/-- `OverwriteBehaviour::conditional` (src/http.rs:67). -/
def OverwriteBehaviour.conditional : OverwriteBehaviour → Bool
  | .checkLength => true
  | _ => false

/-- `UsagePref` (src/http.rs:73); `reject` is the Rust default. -/
inductive UsagePref where
  | require
  | prefer
  | reject
deriving DecidableEq

/-- `UsagePref::bool` (src/http.rs:82). -/
def UsagePref.bool : UsagePref → Bool
  | .require => true
  | .prefer => true
  | .reject => false

/-- `UsagePref::strict` (src/http.rs:86). -/
def UsagePref.strict : UsagePref → Bool
  | .require => true
  | _ => false

/-- Paths are component lists (directory components then file name), the
shallow image of `std::path::PathBuf`. -/
abbrev Path := List String

/-- `FileDownload` (src/http.rs:92), without the progress/style plumbing. -/
structure FileDownload where
  title : Option String
  url : String
  target : Path
  preflight_head : Bool
  overwrite : OverwriteBehaviour
  filename_use_content_disposition : UsagePref
  filename_use_final_url : UsagePref
  filename : Option String

/-- `FileDownload::expect_filename` (src/http.rs:134). -/
def FileDownload.expect_filename (c : FileDownload) : Bool :=
  c.filename_use_content_disposition.bool || c.filename_use_final_url.bool

/-- `FileDownload::should_preflight` (src/http.rs:138). -/
def FileDownload.should_preflight (c : FileDownload) : Bool :=
  c.preflight_head && (c.expect_filename || c.overwrite.conditional)

/-- The three-way result of `FileDownload::filename`: a normal return, an
error return, or the `unimplemented!()` panic of the final-URL branch. -/
inductive FilenameResult where
  | ok (v : Option String)
  | err (e : String)
  | panicked
deriving DecidableEq

/-- The tail of `FileDownload::filename` after the content-disposition
block (src/http.rs:153-161): the unimplemented final-URL branch panics,
then the explicit filename, then the expected-but-missing error. -/
def FileDownload.filename_rest (c : FileDownload) : FilenameResult :=
  if c.filename_use_final_url.bool then .panicked
  else
    match c.filename with
    | some f => .ok (some f)
    | none =>
      if c.expect_filename then .err "filename required but no default provided"
      else .ok none

/-- The content-disposition header of a response, already parsed
(`none` when the header is absent). -/
structure Response where
  ok : Bool
  content_length : Option String
  content_disposition : Option ParsedContentDisposition
  body : List (Except String (List Nat))

/-- Embeds `FileDownload::filename` (src/http.rs:141); named `filename_of`
because `filename` is the record field.  The raw header-value-to-str
decoding is elided: the response carries the parsed header. -/
def FileDownload.filename_of (c : FileDownload) (r : Response) : FilenameResult :=
  if c.filename_use_content_disposition.bool then
    match r.content_disposition with
    | some cd =>
      match filename_from_disposition cd with
      | .ok s => .ok (some s)
      | .error e => .err e
    | none =>
      if c.filename_use_content_disposition.strict then .err "No content-disposition header"
      else c.filename_rest
  else c.filename_rest

/-! ### Temporary sibling names (src/file.rs) -/

/-- `rand::distributions::Alphanumeric`: the 62-symbol alphabet sampled
from, in the order of the crate's `GEN_ASCII_STR_CHARSET`. -/
def gen_ascii_charset : List Char :=
  "ABCDEFGHIJKLMNOPQRSTUVWXYZabcdefghijklmnopqrstuvwxyz0123456789".data

/-- One `Alphanumeric` sample, indexed by the uniform draw. -/
def alphanumeric (i : Fin 62) : Char := gen_ascii_charset.getD i.val 'A'

/-- The eight sampled suffix characters; the thread RNG is passed
explicitly as the sampler `rng`. -/
def tempSuffix (rng : Nat → Fin 62) : List Char :=
  (List.range 8).map (fun j => alphanumeric (rng j))

/-- Embeds `temp_filename` (src/file.rs:19): the collected pieces are, in
order, `"."`, the filename, `"."`, `"tmp"`, and the random suffix. -/
def temp_filename (filename : String) (rng : Nat → Fin 62) : String :=
  "." ++ filename ++ "." ++ "tmp" ++ String.mk (tempSuffix rng)

/-- Embeds `temp_path` (src/file.rs:14): temp sibling in the same
directory, `none` when the path has no filename component. -/
def temp_path (p : Path) (rng : Nat → Fin 62) : Option Path :=
  match p.getLast? with
  | none => none
  | some name => some (p.dropLast ++ [temp_filename name rng])

/-! ### Filesystem model and AtomicFile (src/file.rs) -/

/-- A filesystem entry: a regular file with its byte content, or a
directory (size of a file is its content length). -/
inductive Entry where
  | file (content : List Nat)
  | dir
deriving DecidableEq

/-- The filesystem: an association list from paths to entries. -/
abbrev FS := List (Path × Entry)

/-- Lookup in the filesystem. -/
def FS.lookup : FS → Path → Option Entry
  | [], _ => none
  | (q, e) :: rest, p => if q = p then some e else FS.lookup rest p

/-- Remove every binding of a path. -/
def FS.erase : FS → Path → FS
  | [], _ => []
  | (q, e) :: rest, p => if q = p then FS.erase rest p else (q, e) :: FS.erase rest p

/-- Insert or overwrite a binding. -/
def FS.insert (fs : FS) (p : Path) (e : Entry) : FS := (p, e) :: fs.erase p

/-- `AtomicFile` (src/file.rs:29); the open handle's content lives in the
filesystem at `temp_path`. -/
structure AtomicFile where
  temp_path : Path
  target_path : Path
  committed : Bool

/-- Embeds `AtomicFile::open` (src/file.rs:37); named `openNew` because
`open` is a Lean keyword.  `create_new(true)` fails when the temp path
already exists. -/
def AtomicFile.openNew (p : Path) (rng : Nat → Fin 62) (fs : FS) :
    Except String (AtomicFile × FS) :=
  match Dlcommon.temp_path p rng with
  | none => .error "Should be a regular file"
  | some t =>
    match fs.lookup t with
    | some _ => .error "create_new failed: file exists"
    | none => .ok ({ temp_path := t, target_path := p, committed := false }, fs.insert t (.file []))

/-- Embeds `AtomicFile::write_all` (src/file.rs:55); `fail` injects the
underlying I/O error, in which case the filesystem is unchanged. -/
def AtomicFile.write_all (af : AtomicFile) (fail : Bool) (data : List Nat) (fs : FS) :
    Except String FS :=
  if fail then .error "write failed"
  else
    match fs.lookup af.temp_path with
    | some (.file c) => .ok (fs.insert af.temp_path (.file (c ++ data)))
    | _ => .error "write failed"

/-- Embeds `AtomicFile::commit` (src/file.rs:58).  Note the source sets
`committed` before `sync_all` and the rename, so a failing commit still
leaves the object committed.  `syncFail` and `renameFail` inject the two
fallible steps. -/
def AtomicFile.commit (syncFail renameFail : Bool) (af : AtomicFile) (fs : FS) :
    AtomicFile × FS × Except String Unit :=
  if af.committed then (af, fs, .ok ())
  else
    if syncFail then ({ af with committed := true }, fs, .error "sync_all failed")
    else if renameFail then ({ af with committed := true }, fs, .error "rename failed")
    else
      match fs.lookup af.temp_path with
      | some e =>
        ({ af with committed := true }, (fs.erase af.temp_path).insert af.target_path e, .ok ())
      | none => ({ af with committed := true }, fs, .error "rename failed")

/-- Embeds `AtomicFile::discard` (src/file.rs:67): a no-op when already
committed, otherwise `remove_file` on the TARGET path (which errors when
the target does not exist). -/
def AtomicFile.discard (af : AtomicFile) (fs : FS) : AtomicFile × FS × Except String Unit :=
  if af.committed then (af, fs, .ok ())
  else
    match fs.lookup af.target_path with
    | some _ => (af, fs.erase af.target_path, .ok ())
    | none => (af, fs, .error "remove_file failed: no such file")

/-- Embeds `impl Drop for AtomicFile` (src/file.rs:75) after the spawned
cleanup has settled: best-effort removal of the temp path unless
committed. -/
def AtomicFile.dropCleanup (af : AtomicFile) (fs : FS) : FS :=
  if af.committed then fs else fs.erase af.temp_path

/-! ### The download state machine (src/http.rs:163-269)

The HTTP transport is modelled at its interface: the environment carries the
response the HEAD request would produce and the response the GET request
would produce (`send` errors as the `.error` case; `Response.ok` is the
`error_for_status` verdict), plus the initial filesystem, the RNG sampler,
and the injected I/O failures (index of the failing chunk write, a failing
`sync_all`, a failing rename).  The body is the chunk stream: each element
is a received chunk or the stream error that ends it. -/

structure Env where
  headResp : Except String Response
  getResp : Except String Response
  fs : FS
  rng : Nat → Fin 62
  writeFail : Option Nat
  syncFail : Bool
  renameFail : Bool

/-- The result of running `download`: a normal return, an error return, or
a panic (reachable only through the unimplemented final-URL branch of
`FileDownload::filename`). -/
inductive RunRes (α : Type) where
  | ok (a : α)
  | err (e : String)
  | panicked
deriving DecidableEq

/-- `u64::from_str` as used on the `Content-length` header value: optional
leading plus sign, one or more ASCII digits, value below `2^64`. -/
def parseU64 (s : String) : Option Nat :=
  let l := match s.data with
    | '+' :: rest => rest
    | l => l
  if l = [] then none
  else
    (l.foldl (fun acc c =>
      acc.bind (fun a => if c.isDigit then some (a * 10 + (c.toNat - 48)) else none))
      (some 0)).bind
      (fun n => if n < 18446744073709551616 then some n else none)

/-- The streaming loop of `download` (src/http.rs:255-264): consume the
chunk stream, writing each chunk through the `AtomicFile`; a stream item
error or a failing write aborts with the source's wrapped message.  `i`
counts chunks so the injected `writeFail` index can pick a failing write.
The byte counter of the source only feeds the progress callback and is not
modelled. -/
def streamWrite (writeFail : Option Nat) (af : AtomicFile) :
    List (Except String (List Nat)) → Nat → FS → Except String Unit × FS
  | [], _, fs => (.ok (), fs)
  | chunk :: rest, i, fs =>
    match chunk with
    | .error e => (.error ("Error streaming bytes from HTTP response: " ++ e), fs)
    | .ok b =>
      match af.write_all (decide (writeFail = some i)) b fs with
      | .error e => (.error ("Error writing bytes to tempfile: " ++ e), fs)
      | .ok fs2 => streamWrite writeFail af rest (i + 1) fs2

/-- The tail of `download` once the body response `g` is in hand
(src/http.rs:247-268): open the `AtomicFile`, stream the body into it,
commit, and in every exit path drop the handle (so the drop cleanup has
settled in the returned filesystem). -/
def afterResp (env : Env) (fname : Path) (outc : Outcome) (g : Response) (fs : FS) :
    RunRes (Path × Outcome) × FS :=
  match AtomicFile.openNew fname env.rng fs with
  | .error e => (.err ("Could not open tempfile for writing: " ++ e), fs)
  | .ok (af, fs1) =>
    match streamWrite env.writeFail af g.body 0 fs1 with
    | (.error e, fs2) => (.err e, af.dropCleanup fs2)
    | (.ok _, fs2) =>
      match AtomicFile.commit env.syncFail env.renameFail af fs2 with
      | (af2, fs3, .error e) =>
        (.err ("Error committing written file: " ++ e), af2.dropCleanup fs3)
      | (af2, fs3, .ok _) => (.ok (fname, outc), af2.dropCleanup fs3)

/-- The body-fetch step of `download` (src/http.rs:242-246): after a
preflight the GET is issued now (plain `error_for_status`, no custom
message); otherwise the first response `r` already carries the body. -/
def finishDownload (env : Env) (preflight : Bool) (fname : Path) (outc : Outcome)
    (r : Response) (fs : FS) : RunRes (Path × Outcome) × FS :=
  if preflight then
    match env.getResp with
    | .error e => (.err e, fs)
    | .ok g => if g.ok = false then (.err "HTTP status error" , fs) else afterResp env fname outc g fs
  else afterResp env fname outc r fs

/-- Embeds `FileDownload::download` (src/http.rs:163).  `create_dir_all`
on the fresh-download path is a no-op in the model (directories are
implicit); the progress callback is pure observation and not modelled. -/
def FileDownload.download (c : FileDownload) (env : Env) : RunRes (Path × Outcome) × FS :=
  match (if c.should_preflight then env.headResp else env.getResp) with
  | .error e => (.err e, env.fs)
  | .ok r =>
    if r.ok = false then
      (.err ("Error in " ++ (if c.should_preflight then "preflight " else "") ++ "HTTP request"),
        env.fs)
    else
      match r.content_length with
      | none => (.err "No content-length header", env.fs)
      | some cl =>
        match parseU64 cl with
        | none => (.err "invalid content-length", env.fs)
        | some len =>
          match c.filename_of r with
          | .panicked => (.panicked, env.fs)
          | .err e => (.err e, env.fs)
          | .ok fOpt =>
            match env.fs.lookup (match fOpt with
              | none => c.target
              | some f => c.target ++ [f]) with
            | some (.dir) =>
              (.err "File exists and is not a regular file", env.fs)
            | some (.file content) =>
              match c.overwrite with
              | .never =>
                (.ok ((match fOpt with | none => c.target | some f => c.target ++ [f]),
                  .existing), env.fs)
              | .fail => (.err "File already exists. failing!", env.fs)
              | .always =>
                finishDownload env c.should_preflight
                  (match fOpt with | none => c.target | some f => c.target ++ [f])
                  (.redownload len) r env.fs
              | .checkLength =>
                if content.length ≠ len then
                  finishDownload env c.should_preflight
                    (match fOpt with | none => c.target | some f => c.target ++ [f])
                    (.redownload len) r env.fs
                else
                  (.ok ((match fOpt with | none => c.target | some f => c.target ++ [f]),
                    .existing), env.fs)
            | none =>
              finishDownload env c.should_preflight
                (match fOpt with | none => c.target | some f => c.target ++ [f])
                (.download len) r env.fs

/-! ### The orchestrator (src/operation.rs)

Tokio tasks are modelled by their observable effects at the join points:
each item gets its own download environment (the shared world at that
task's linearisation point), `acquireOk i` says whether the i-th
`acquire_owned` succeeds, and `joinOk i` whether the i-th join succeeds
apart from a panic of the task itself (a panicked download also surfaces
as a join error).  The progress bars are pure observation; the one
observable retained is the error line `create_task` prints for a failed
download. -/

structure OpEnv where
  dlEnv : Nat → Env
  acquireOk : Nat → Bool
  joinOk : Nat → Bool

/-- Embeds `create_task` (src/operation.rs:155): runs the download,
swallows a download error after printing the report line (identified by
title or URL), and lets a panic escape to the join.  Returns the task's
terminal state and its printed lines. -/
def create_task (item : FileDownload) (denv : Env) : RunRes Unit × List String :=
  match (item.download denv).1 with
  | .ok _ => (.ok (), [])
  | .err e => (.ok (), ["Error downloading " ++ (item.title.getD item.url) ++ ": " ++ e])
  | .panicked => (.panicked, [])

/-- The spawn loop of `Operation::run` (src/operation.rs:130-146): acquire
a permit per item (a failing acquire aborts the loop with the error, so
later items are never spawned) and spawn the task. -/
def runSpawn (oenv : OpEnv) : List FileDownload → Nat → Except String Unit × List (RunRes Unit × List String)
  | [], _ => (.ok (), [])
  | item :: rest, i =>
    if oenv.acquireOk i then
      match runSpawn oenv rest (i + 1) with
      | (res, hs) => (res, create_task item (oenv.dlEnv i) :: hs)
    else (.error "semaphore closed", [])

/-- The join loop of `Operation::run` (src/operation.rs:147-149): the
first join error (task panicked, or the join itself failed) aborts with
`?`. -/
def runJoin (oenv : OpEnv) : List (RunRes Unit) → Nat → Except String Unit
  | [], _ => .ok ()
  | h :: rest, j =>
    match h with
    | .panicked => .error "task panicked"
    | _ => if oenv.joinOk j then runJoin oenv rest (j + 1) else .error "join failed"

/-- Embeds `Operation::run` (src/operation.rs:102): spawn all items behind
permits, join the handles, return the machinery verdict together with the
lines the spawned tasks printed. -/
def Operation.run (items : List FileDownload) (oenv : OpEnv) : Except String Unit × List String :=
  match runSpawn oenv items 0 with
  | (res, hs) =>
    ( (match res with
       | .error e => .error e
       | .ok _ => runJoin oenv (hs.map (fun h => h.1)) 0),
      (hs.map (fun h => h.2)).flatten )

/-! ### Association-list filesystem lemmas -/

theorem FS.lookup_erase (fs : FS) (p : Path) : (fs.erase p).lookup p = none := by
  induction fs with
  | nil => rfl
  | cons hd tl ih =>
    obtain ⟨q, e⟩ := hd
    by_cases h : q = p <;> simp [FS.erase, FS.lookup, h, ih]

theorem FS.lookup_erase_ne (fs : FS) {p q : Path} (h : q ≠ p) :
    (fs.erase p).lookup q = fs.lookup q := by
  induction fs with
  | nil => rfl
  | cons hd tl ih =>
    obtain ⟨q', e⟩ := hd
    simp only [FS.erase, FS.lookup]
    by_cases h1 : q' = p
    · subst h1
      have h2 : ¬ q' = q := fun hh => h hh.symm
      simp [FS.lookup, h2, ih]
    · by_cases h2 : q' = q
      · subst h2; simp [FS.lookup, h1, ih]
      · simp [FS.lookup, h1, h2, ih]

theorem FS.lookup_insert (fs : FS) (p : Path) (e : Entry) :
    (fs.insert p e).lookup p = some e := by
  simp [FS.insert, FS.lookup]

theorem FS.lookup_insert_ne (fs : FS) {p q : Path} (e : Entry) (h : q ≠ p) :
    (fs.insert p e).lookup q = fs.lookup q := by
  have : ¬ p = q := fun hh => h hh.symm
  simp [FS.insert, FS.lookup, this, FS.lookup_erase_ne fs h]

theorem FS.erase_idem (fs : FS) (p : Path) : (fs.erase p).erase p = fs.erase p := by
  induction fs with
  | nil => rfl
  | cons hd tl ih =>
    obtain ⟨q, e⟩ := hd
    by_cases h : q = p <;> simp [FS.erase, h, ih]

theorem FS.erase_insert (fs : FS) (p : Path) (e : Entry) :
    (fs.insert p e).erase p = fs.erase p := by
  simp [FS.insert, FS.erase, FS.erase_idem]

/-! ### Temp-name facts -/

theorem tempSuffix_length (rng : Nat → Fin 62) : (tempSuffix rng).length = 8 := by
  simp [tempSuffix]

theorem alphanumeric_isAlphanum : ∀ i : Fin 62, (alphanumeric i).isAlphanum = true := by
  decide

theorem temp_filename_length (name : String) (rng : Nat → Fin 62) :
    (temp_filename name rng).length = name.length + 13 := by
  have h1 : ("." : String).length = 1 := rfl
  have h2 : ("tmp" : String).length = 3 := rfl
  have h3 : (String.mk (tempSuffix rng)).length = (tempSuffix rng).length := rfl
  simp [temp_filename, String.length_append, h1, h2, h3, tempSuffix_length]
  omega

/-- The temp sibling differs from the target: its filename component is 13
characters longer. -/
theorem temp_path_ne (p : Path) (t : Path) (rng : Nat → Fin 62)
    (h : temp_path p rng = some t) : t ≠ p := by
  unfold temp_path at h
  cases hl : p.getLast? with
  | none => rw [hl] at h; exact absurd h (by simp)
  | some name =>
    rw [hl] at h
    intro he
    have ht : t = p.dropLast ++ [temp_filename name rng] := by
      cases h; rfl
    have h2 : (p.dropLast ++ [temp_filename name rng]).getLast? = p.getLast? := by
      rw [← ht, he]
    rw [List.getLast?_concat, hl] at h2
    have h3 : temp_filename name rng = name := by injection h2
    have h4 := temp_filename_length name rng
    rw [h3] at h4
    omega

/-! ### Streaming-loop lemmas -/

/-- Is a body chunk a received chunk (as opposed to a stream error)? -/
def chunkOk : Except String (List Nat) → Bool
  | .ok _ => true
  | .error _ => false

/-- The bytes of all received chunks, in order. -/
def concatBody : List (Except String (List Nat)) → List Nat
  | [] => []
  | .ok b :: rest => b ++ concatBody rest
  | .error _ :: rest => concatBody rest

theorem streamWrite_lookup_ne (wf : Option Nat) (af : AtomicFile)
    (body : List (Except String (List Nat))) (i : Nat) (fs : FS) {q : Path}
    (h : q ≠ af.temp_path) :
    ((streamWrite wf af body i fs).2).lookup q = fs.lookup q := by
  induction body generalizing i fs with
  | nil => rfl
  | cons chunk rest ih =>
    cases chunk with
    | error e => rfl
    | ok b =>
      by_cases hw : wf = some i
      · simp [streamWrite, AtomicFile.write_all, hw]
      · cases hl : fs.lookup af.temp_path with
        | none => simp [streamWrite, AtomicFile.write_all, hw, hl]
        | some entry =>
          cases entry with
          | dir => simp [streamWrite, AtomicFile.write_all, hw, hl]
          | file c =>
            have hrec := ih (i + 1) (fs.insert af.temp_path (.file (c ++ b)))
            simp [streamWrite, AtomicFile.write_all, hw, hl, hrec,
              FS.lookup_insert_ne _ _ h]

theorem streamWrite_temp_stays (wf : Option Nat) (af : AtomicFile)
    (body : List (Except String (List Nat))) (i : Nat) (fs : FS) (c : List Nat)
    (h : fs.lookup af.temp_path = some (.file c)) :
    ∃ c2, ((streamWrite wf af body i fs).2).lookup af.temp_path = some (.file c2) := by
  induction body generalizing i fs c with
  | nil => exact ⟨c, h⟩
  | cons chunk rest ih =>
    cases chunk with
    | error e => exact ⟨c, h⟩
    | ok b =>
      by_cases hw : wf = some i
      · refine ⟨c, ?_⟩
        simp [streamWrite, AtomicFile.write_all, hw, h]
      · have hrec := ih (i + 1) (fs.insert af.temp_path (.file (c ++ b)))
          (c ++ b) (FS.lookup_insert _ _ _)
        simpa [streamWrite, AtomicFile.write_all, hw, h] using hrec

theorem streamWrite_allok (af : AtomicFile)
    (body : List (Except String (List Nat))) (i : Nat) (fs : FS) (c : List Nat)
    (hall : ∀ x ∈ body, chunkOk x = true)
    (h : fs.lookup af.temp_path = some (.file c)) :
    (streamWrite none af body i fs).1 = .ok () ∧
    ∀ q, ((streamWrite none af body i fs).2).lookup q =
      (fs.insert af.temp_path (.file (c ++ concatBody body))).lookup q := by
  induction body generalizing i fs c with
  | nil =>
    refine ⟨rfl, fun q => ?_⟩
    by_cases hq : q = af.temp_path
    · subst hq
      simp [streamWrite, FS.lookup_insert, concatBody, h]
    · simp [streamWrite, FS.lookup_insert_ne _ _ hq]
  | cons chunk rest ih =>
    cases chunk with
    | error e => exact absurd (hall _ (List.mem_cons_self _ _)) (by simp [chunkOk])
    | ok b =>
      have hall2 : ∀ x ∈ rest, chunkOk x = true := fun x hx => hall x (List.mem_cons_of_mem _ hx)
      have hrec := ih (i + 1) (fs.insert af.temp_path (.file (c ++ b)))
        (c ++ b) hall2 (FS.lookup_insert _ _ _)
      refine ⟨?_, fun q => ?_⟩
      · simpa [streamWrite, AtomicFile.write_all, h] using hrec.1
      · have hq2 := hrec.2 q
        by_cases hq : q = af.temp_path
        · subst hq
          simp only [FS.lookup_insert] at hq2
          simp [streamWrite, AtomicFile.write_all, h, hq2, FS.lookup_insert, concatBody,
            List.append_assoc]
        · simp only [FS.lookup_insert_ne _ _ hq] at hq2
          simp [streamWrite, AtomicFile.write_all, h, hq2, FS.lookup_insert_ne _ _ hq]

/-! ### Body-fetch phase lemmas -/

theorem afterResp_ok (env : Env) (fname : Path) (outc : Outcome) (g : Response) (fs : FS)
    (t : Path)
    (ht : temp_path fname env.rng = some t) (htn : fs.lookup t = none)
    (hwf : env.writeFail = none) (hall : ∀ x ∈ g.body, chunkOk x = true)
    (hsf : env.syncFail = false) (hrf : env.renameFail = false) :
    (afterResp env fname outc g fs).1 = .ok (fname, outc) ∧
    ∀ q, ((afterResp env fname outc g fs).2).lookup q =
      ((fs.erase t).insert fname (.file (concatBody g.body))).lookup q := by
  have hne : t ≠ fname := temp_path_ne fname t env.rng ht
  have hopen : AtomicFile.openNew fname env.rng fs =
      .ok (⟨t, fname, false⟩, fs.insert t (.file [])) := by
    simp [AtomicFile.openNew, ht, htn]
  have hsw := streamWrite_allok ⟨t, fname, false⟩ g.body 0 (fs.insert t (.file [])) [] hall
    (FS.lookup_insert fs t (.file []))
  obtain ⟨hsw1, hsw2⟩ := hsw
  rcases hswe : streamWrite none ⟨t, fname, false⟩ g.body 0 (fs.insert t (.file []))
    with ⟨res, fs2⟩
  rw [hswe] at hsw1 hsw2
  cases res with
  | error e2 => exact absurd hsw1 (by simp)
  | ok u =>
    have hlt : fs2.lookup t = some (.file (concatBody g.body)) := by
      have h2 := hsw2 t
      simpa [FS.lookup_insert] using h2
    have hcommit : AtomicFile.commit env.syncFail env.renameFail ⟨t, fname, false⟩ fs2 =
        (⟨t, fname, true⟩, (fs2.erase t).insert fname (.file (concatBody g.body)), .ok ()) := by
      simp [AtomicFile.commit, hsf, hrf, hlt]
    have hres : afterResp env fname outc g fs =
        (.ok (fname, outc), (fs2.erase t).insert fname (.file (concatBody g.body))) := by
      simp [afterResp, hopen, hwf, hswe, hcommit, AtomicFile.dropCleanup]
    rw [hres]
    refine ⟨rfl, fun q => ?_⟩
    by_cases hq : q = fname
    · subst hq
      simp [FS.lookup_insert]
    · rw [FS.lookup_insert_ne _ _ hq, FS.lookup_insert_ne _ _ hq]
      by_cases hq2 : q = t
      · subst hq2
        rw [FS.lookup_erase, FS.lookup_erase]
      · rw [FS.lookup_erase_ne _ hq2, FS.lookup_erase_ne _ hq2]
        have h3 := hsw2 q
        rw [FS.lookup_insert_ne _ _ hq2, FS.lookup_insert_ne _ _ hq2] at h3
        exact h3

theorem afterResp_err (env : Env) (fname : Path) (outc : Outcome) (g : Response) (fs : FS)
    (t : Path) (e : String)
    (ht : temp_path fname env.rng = some t) (htn : fs.lookup t = none)
    (herr : (afterResp env fname outc g fs).1 = .err e) :
    ((afterResp env fname outc g fs).2).lookup fname = fs.lookup fname ∧
    (env.syncFail = false → env.renameFail = false →
      ∀ q, ((afterResp env fname outc g fs).2).lookup q = fs.lookup q) ∧
    (env.writeFail = none → (∀ x ∈ g.body, chunkOk x = true) →
      ∃ c2, ((afterResp env fname outc g fs).2).lookup t = some (.file c2)) := by
  have hne : t ≠ fname := temp_path_ne fname t env.rng ht
  have hnef : fname ≠ t := fun hh => hne hh.symm
  have hopen : AtomicFile.openNew fname env.rng fs =
      .ok (⟨t, fname, false⟩, fs.insert t (.file [])) := by
    simp [AtomicFile.openNew, ht, htn]
  rcases hswe : streamWrite env.writeFail ⟨t, fname, false⟩ g.body 0 (fs.insert t (.file []))
    with ⟨res, fs2⟩
  have hfs2ne : ∀ q, q ≠ t → fs2.lookup q = fs.lookup q := by
    intro q hq
    have h1 := streamWrite_lookup_ne env.writeFail ⟨t, fname, false⟩ g.body 0
      (fs.insert t (.file [])) (q := q) hq
    rw [hswe] at h1
    rw [h1, FS.lookup_insert_ne _ _ hq]
  cases res with
  | error e2 =>
    have hres : afterResp env fname outc g fs = (.err e2, fs2.erase t) := by
      simp [afterResp, hopen, hswe, AtomicFile.dropCleanup]
    rw [hres]
    refine ⟨?_, ?_, ?_⟩
    · rw [FS.lookup_erase_ne _ hnef, hfs2ne fname hnef]
    · intro _ _ q
      by_cases hq : q = t
      · subst hq
        rw [FS.lookup_erase, htn]
      · rw [FS.lookup_erase_ne _ hq, hfs2ne q hq]
    · intro hwf hall
      have h2 := (streamWrite_allok ⟨t, fname, false⟩ g.body 0 (fs.insert t (.file [])) []
        hall (FS.lookup_insert fs t (.file []))).1
      rw [hwf] at hswe
      rw [hswe] at h2
      exact absurd h2 (by simp)
  | ok u =>
    have hstays := streamWrite_temp_stays env.writeFail ⟨t, fname, false⟩ g.body 0
      (fs.insert t (.file [])) [] (FS.lookup_insert fs t (.file []))
    rw [hswe] at hstays
    obtain ⟨c2, hc2⟩ := hstays
    cases hsf : env.syncFail with
    | true =>
      have hres : afterResp env fname outc g fs =
          (.err ("Error committing written file: " ++ "sync_all failed"), fs2) := by
        simp [afterResp, hopen, hswe, AtomicFile.commit, hsf, AtomicFile.dropCleanup]
      rw [hres]
      refine ⟨hfs2ne fname hnef, ?_, ?_⟩
      · intro hs
        exact nomatch hs
      · intro _ _
        exact ⟨c2, hc2⟩
    | false =>
      cases hrf : env.renameFail with
      | true =>
        have hres : afterResp env fname outc g fs =
            (.err ("Error committing written file: " ++ "rename failed"), fs2) := by
          simp [afterResp, hopen, hswe, AtomicFile.commit, hsf, hrf, AtomicFile.dropCleanup]
        rw [hres]
        refine ⟨hfs2ne fname hnef, ?_, ?_⟩
        · intro _ hr
          exact nomatch hr
        · intro _ _
          exact ⟨c2, hc2⟩
      | false =>
        have hres : (afterResp env fname outc g fs).1 = .ok (fname, outc) := by
          simp [afterResp, hopen, hswe, AtomicFile.commit, hsf, hrf, hc2,
            AtomicFile.dropCleanup]
        rw [hres] at herr
        cases herr

theorem finish_eq_afterResp (env : Env) (pf : Bool) (fname : Path) (outc : Outcome)
    (r g : Response) (fs : FS)
    (hg : env.getResp = .ok g) (hgok : g.ok = true) (hr : pf = false → r = g) :
    finishDownload env pf fname outc r fs = afterResp env fname outc g fs := by
  cases pf with
  | true => simp [finishDownload, hg, hgok]
  | false => simp [finishDownload, hr rfl]

/-- Which branch of `download` runs, as one bundle: the hypotheses pin the
metadata phase (response, content length, resolved filename), and each
conjunct describes one overwrite-policy branch. -/
theorem download_proceeds (c : FileDownload) (env : Env) (r : Response) (cl : String)
    (len : Nat) (fOpt : Option String) (fname : Path)
    (h1 : (if c.should_preflight then env.headResp else env.getResp) = .ok r)
    (h2 : r.ok = true)
    (h3 : r.content_length = some cl)
    (h4 : parseU64 cl = some len)
    (h5 : c.filename_of r = .ok fOpt)
    (hf : (match fOpt with | none => c.target | some f => c.target ++ [f]) = fname) :
    (env.fs.lookup fname = none →
      c.download env = finishDownload env c.should_preflight fname (.download len) r env.fs) ∧
    (∀ content, env.fs.lookup fname = some (.file content) → c.overwrite = .always →
      c.download env = finishDownload env c.should_preflight fname (.redownload len) r env.fs) ∧
    (∀ content, env.fs.lookup fname = some (.file content) → c.overwrite = .checkLength →
      content.length ≠ len →
      c.download env = finishDownload env c.should_preflight fname (.redownload len) r env.fs) ∧
    (∀ content, env.fs.lookup fname = some (.file content) → c.overwrite = .never →
      c.download env = (.ok (fname, .existing), env.fs)) ∧
    (∀ content, env.fs.lookup fname = some (.file content) → c.overwrite = .fail →
      c.download env = (.err "File already exists. failing!", env.fs)) ∧
    (∀ content, env.fs.lookup fname = some (.file content) → c.overwrite = .checkLength →
      content.length = len →
      c.download env = (.ok (fname, .existing), env.fs)) := by
  cases fOpt with
  | none =>
    subst hf
    refine ⟨?_, ?_, ?_, ?_, ?_, ?_⟩
    · intro hlook
      simp [FileDownload.download, h1, h2, h3, h4, h5, hlook]
    · intro content hlook hov
      simp [FileDownload.download, h1, h2, h3, h4, h5, hlook, hov]
    · intro content hlook hov hne
      simp [FileDownload.download, h1, h2, h3, h4, h5, hlook, hov, hne]
    · intro content hlook hov
      simp [FileDownload.download, h1, h2, h3, h4, h5, hlook, hov]
    · intro content hlook hov
      simp [FileDownload.download, h1, h2, h3, h4, h5, hlook, hov]
    · intro content hlook hov hlen
      simp [FileDownload.download, h1, h2, h3, h4, h5, hlook, hov, hlen]
  | some f =>
    subst hf
    refine ⟨?_, ?_, ?_, ?_, ?_, ?_⟩
    · intro hlook
      simp [FileDownload.download, h1, h2, h3, h4, h5, hlook]
    · intro content hlook hov
      simp [FileDownload.download, h1, h2, h3, h4, h5, hlook, hov]
    · intro content hlook hov hne
      simp [FileDownload.download, h1, h2, h3, h4, h5, hlook, hov, hne]
    · intro content hlook hov
      simp [FileDownload.download, h1, h2, h3, h4, h5, hlook, hov]
    · intro content hlook hov
      simp [FileDownload.download, h1, h2, h3, h4, h5, hlook, hov]
    · intro content hlook hov hlen
      simp [FileDownload.download, h1, h2, h3, h4, h5, hlook, hov, hlen]

/-- All the environment facts a fully successful body fetch needs: the GET
succeeds with a 2xx status, the temp sibling can be created, and no stream,
write, sync or rename failure is injected. -/
def SuccessEnv (env : Env) (g : Response) (fname t : Path) : Prop :=
  env.getResp = .ok g ∧ g.ok = true ∧ temp_path fname env.rng = some t ∧
  env.fs.lookup t = none ∧ env.writeFail = none ∧ env.syncFail = false ∧
  env.renameFail = false ∧ (∀ x ∈ g.body, chunkOk x = true)

/-! ### Concrete fixtures used by witnesses and counterexamples -/

/-- A concrete sampler: always draws index 0, i.e. the letter A. -/
def exRng : Nat → Fin 62 := fun _ => ⟨0, by decide⟩

/-- A 2xx response with `Content-length: 3`, no disposition header, and a
two-chunk body totalling 3 bytes. -/
def exResp : Response :=
  { ok := true, content_length := some "3", content_disposition := none,
    body := [.ok [1, 2], .ok [3]] }

/-- A download of `exResp` straight to the literal target path `d/f`. -/
def exCfg : FileDownload :=
  { title := none, url := "http target", target := ["d", "f"], preflight_head := false,
    overwrite := .always, filename_use_content_disposition := .reject,
    filename_use_final_url := .reject, filename := none }

/-- A benign environment: empty filesystem, no injected failures. -/
def exEnv : Env :=
  { headResp := .error "unused", getResp := .ok exResp, fs := [], rng := exRng,
    writeFail := none, syncFail := false, renameFail := false }

/-! ### C1 -/

/-- C1 (amended).  If `download` returns an error after `AtomicFile::open`
succeeded (the hypotheses say the run reached the body-fetch phase and the
temp sibling was creatable), then: the destination path is unchanged; when
neither commit step was the failure (no sync or rename failure injected)
the whole filesystem is unchanged, so no temp sibling remains; but when the
body streamed and wrote fine and the error therefore arose in `commit`, the
temp file REMAINS on disk (the claim's "no `*.tmp` sibling remains" fails
in exactly this case, see the counterexample). -/
theorem c1_download_error_cleanup (c : FileDownload) (env : Env) (r g : Response)
    (fname t : Path) (outc : Outcome) (e : String)
    (hbr : c.download env = finishDownload env c.should_preflight fname outc r env.fs)
    (hg : env.getResp = .ok g) (hgok : g.ok = true)
    (hr : c.should_preflight = false → r = g)
    (ht : temp_path fname env.rng = some t) (htn : env.fs.lookup t = none)
    (herr : (c.download env).1 = .err e) :
    ((c.download env).2).lookup fname = env.fs.lookup fname ∧
    (env.syncFail = false → env.renameFail = false →
      ∀ q, ((c.download env).2).lookup q = env.fs.lookup q) ∧
    (env.writeFail = none → (∀ x ∈ g.body, chunkOk x = true) →
      ∃ c2, ((c.download env).2).lookup t = some (.file c2)) := by
  rw [hbr, finish_eq_afterResp env _ fname outc r g env.fs hg hgok hr] at herr ⊢
  exact afterResp_err env fname outc g env.fs t e ht htn herr

/-- C1 counterexample: with a failing rename injected, `download` returns a
commit error after `AtomicFile::open` succeeded, the destination is absent
as before — but the temp sibling `d/.f.tmpAAAAAAAA` remains on disk with
the fully written body, refuting "no temp sibling remains". -/
theorem c1_commit_failure_leaves_temp :
    (exCfg.download { exEnv with renameFail := true }).1 =
      .err ("Error committing written file: " ++ "rename failed") ∧
    ((exCfg.download { exEnv with renameFail := true }).2).lookup
      ["d", ".f.tmpAAAAAAAA"] = some (.file [1, 2, 3]) ∧
    ((exCfg.download { exEnv with renameFail := true }).2).lookup ["d", "f"] = none := by
  decide

/-- Witness for C1: the amended theorem applied at the rename-failure
fixture. -/
theorem c1_download_error_cleanup_witness :
    ((exCfg.download { exEnv with renameFail := true }).2).lookup ["d", "f"] =
      ({ exEnv with renameFail := true } : Env).fs.lookup ["d", "f"] ∧
    ∃ c2, ((exCfg.download { exEnv with renameFail := true }).2).lookup
      ["d", ".f.tmpAAAAAAAA"] = some (.file c2) := by
  have h := c1_download_error_cleanup exCfg { exEnv with renameFail := true } exResp exResp
    ["d", "f"] ["d", ".f.tmpAAAAAAAA"] (.download 3)
    ("Error committing written file: " ++ "rename failed")
    (by decide) rfl rfl (fun _ => rfl) (by decide) rfl (by decide)
  exact ⟨h.1, h.2.2 rfl (by decide)⟩

/-! ### C2 -/

/-- C2 (confirmed).  With an existing regular destination file of size
`content.length` and remote length `L`: `Never` returns `Existing` with the
filesystem untouched (in particular the body is never consumed — the
conclusion does not depend on it); `Fail` errors likewise; `CheckLength`
with matching sizes returns `Existing` untouched; `Always`, and
`CheckLength` with a size mismatch, proceed and return `Redownload L` with
the destination now holding the fetched body. -/
theorem c2_overwrite_matrix (c : FileDownload) (env : Env) (r g : Response) (cl : String)
    (L : Nat) (fOpt : Option String) (fname t : Path) (content : List Nat)
    (h1 : (if c.should_preflight then env.headResp else env.getResp) = .ok r)
    (h2 : r.ok = true) (h3 : r.content_length = some cl) (h4 : parseU64 cl = some L)
    (h5 : c.filename_of r = .ok fOpt)
    (hf : (match fOpt with | none => c.target | some f => c.target ++ [f]) = fname)
    (hex : env.fs.lookup fname = some (.file content)) :
    (c.overwrite = .never → c.download env = (.ok (fname, .existing), env.fs)) ∧
    (c.overwrite = .fail → c.download env = (.err "File already exists. failing!", env.fs)) ∧
    (c.overwrite = .checkLength → content.length = L →
      c.download env = (.ok (fname, .existing), env.fs)) ∧
    (c.overwrite = .always → SuccessEnv env g fname t →
      (c.download env).1 = .ok (fname, .redownload L) ∧
      ((c.download env).2).lookup fname = some (.file (concatBody g.body))) ∧
    (c.overwrite = .checkLength → content.length ≠ L → SuccessEnv env g fname t →
      (c.download env).1 = .ok (fname, .redownload L) ∧
      ((c.download env).2).lookup fname = some (.file (concatBody g.body))) := by
  have hb := download_proceeds c env r cl L fOpt fname h1 h2 h3 h4 h5 hf
  refine ⟨?_, ?_, ?_, ?_, ?_⟩
  · intro hov
    exact hb.2.2.2.1 content hex hov
  · intro hov
    exact hb.2.2.2.2.1 content hex hov
  · intro hov hlen
    exact hb.2.2.2.2.2 content hex hov hlen
  · intro hov hs
    obtain ⟨hg, hgok, ht, htn, hwf, hsf, hrf, hall⟩ := hs
    have hr : c.should_preflight = false → r = g := by
      intro hpf
      rw [hpf] at h1
      simp only [Bool.false_eq_true, if_false] at h1
      rw [h1] at hg
      exact Except.ok.inj hg
    have heq := hb.2.1 content hex hov
    rw [heq, finish_eq_afterResp env _ fname _ r g env.fs hg hgok hr]
    have hok := afterResp_ok env fname (.redownload L) g env.fs t ht htn hwf hall hsf hrf
    exact ⟨hok.1, by rw [hok.2 fname, FS.lookup_insert]⟩
  · intro hov hlen hs
    obtain ⟨hg, hgok, ht, htn, hwf, hsf, hrf, hall⟩ := hs
    have hr : c.should_preflight = false → r = g := by
      intro hpf
      rw [hpf] at h1
      simp only [Bool.false_eq_true, if_false] at h1
      rw [h1] at hg
      exact Except.ok.inj hg
    have heq := hb.2.2.1 content hex hov hlen
    rw [heq, finish_eq_afterResp env _ fname _ r g env.fs hg hgok hr]
    have hok := afterResp_ok env fname (.redownload L) g env.fs t ht htn hwf hall hsf hrf
    exact ⟨hok.1, by rw [hok.2 fname, FS.lookup_insert]⟩

/-- The C2 fixture: destination `d/f` exists with 2 bytes while the remote
length is 3. -/
def exEnvExisting : Env := { exEnv with fs := [(["d", "f"], .file [9, 9])] }

/-- Witness for C2: the matrix applied at the existing-file fixture, for
the `Never` short-circuit and for the `Always` refetch. -/
theorem c2_overwrite_matrix_witness :
    ({ exCfg with overwrite := .never }).download exEnvExisting =
      (.ok (["d", "f"], .existing), exEnvExisting.fs) ∧
    (({ exCfg with overwrite := .always }).download exEnvExisting).1 =
      .ok (["d", "f"], .redownload 3) := by
  constructor
  · exact (c2_overwrite_matrix { exCfg with overwrite := .never } exEnvExisting exResp exResp
      "3" 3 none ["d", "f"] ["d", ".f.tmpAAAAAAAA"] [9, 9]
      rfl rfl rfl (by decide) rfl rfl (by decide)).1 rfl
  · exact ((c2_overwrite_matrix { exCfg with overwrite := .always } exEnvExisting exResp exResp
      "3" 3 none ["d", "f"] ["d", ".f.tmpAAAAAAAA"] [9, 9]
      rfl rfl rfl (by decide) rfl rfl (by decide)).2.2.2.1 rfl
      ⟨rfl, rfl, by decide, by decide, rfl, rfl, rfl, by decide⟩).1

/-! ### C10 -/

/-- C10 (confirmed).  On a successful download the payload of
`Download`/`Redownload` is exactly the parsed `Content-Length` header
value `L`, while the committed destination content is the concatenation of
the body chunks — the theorem places no constraint relating the two, so a
body shorter or longer than the header is still committed and reported
with the header's length (see the witness, which commits a 3-byte body
reported as 100). -/
theorem c10_outcome_length_from_header (c : FileDownload) (env : Env) (r g : Response)
    (cl : String) (L : Nat) (fOpt : Option String) (fname t : Path)
    (h1 : (if c.should_preflight then env.headResp else env.getResp) = .ok r)
    (h2 : r.ok = true) (h3 : r.content_length = some cl) (h4 : parseU64 cl = some L)
    (h5 : c.filename_of r = .ok fOpt)
    (hf : (match fOpt with | none => c.target | some f => c.target ++ [f]) = fname)
    (hs : SuccessEnv env g fname t) :
    (env.fs.lookup fname = none →
      (c.download env).1 = .ok (fname, .download L) ∧
      ((c.download env).2).lookup fname = some (.file (concatBody g.body)) ∧
      ((c.download env).2).lookup t = none) ∧
    (∀ content, env.fs.lookup fname = some (.file content) → c.overwrite = .always →
      (c.download env).1 = .ok (fname, .redownload L) ∧
      ((c.download env).2).lookup fname = some (.file (concatBody g.body)) ∧
      ((c.download env).2).lookup t = none) := by
  have hb := download_proceeds c env r cl L fOpt fname h1 h2 h3 h4 h5 hf
  obtain ⟨hg, hgok, ht, htn, hwf, hsf, hrf, hall⟩ := hs
  have hr : c.should_preflight = false → r = g := by
    intro hpf
    rw [hpf] at h1
    simp only [Bool.false_eq_true, if_false] at h1
    rw [h1] at hg
    exact Except.ok.inj hg
  have hne : t ≠ fname := temp_path_ne fname t env.rng ht
  constructor
  · intro hlook
    have heq := hb.1 hlook
    rw [heq, finish_eq_afterResp env _ fname _ r g env.fs hg hgok hr]
    have hok := afterResp_ok env fname (.download L) g env.fs t ht htn hwf hall hsf hrf
    refine ⟨hok.1, by rw [hok.2 fname, FS.lookup_insert], ?_⟩
    rw [hok.2 t, FS.lookup_insert_ne _ _ hne, FS.lookup_erase]
  · intro content hlook hov
    have heq := hb.2.1 content hlook hov
    rw [heq, finish_eq_afterResp env _ fname _ r g env.fs hg hgok hr]
    have hok := afterResp_ok env fname (.redownload L) g env.fs t ht htn hwf hall hsf hrf
    refine ⟨hok.1, by rw [hok.2 fname, FS.lookup_insert], ?_⟩
    rw [hok.2 t, FS.lookup_insert_ne _ _ hne, FS.lookup_erase]

/-- The C10 fixture: the header says 100 bytes but the body carries 3. -/
def exRespShort : Response :=
  { ok := true, content_length := some "100", content_disposition := none,
    body := [.ok [1, 2, 3]] }

/-- The C10 environment around `exRespShort`. -/
def exEnvShort : Env := { exEnv with getResp := .ok exRespShort }

/-- Witness for C10: a 3-byte body under a `Content-length: 100` header is
committed in full and reported as `Download 100`. -/
theorem c10_outcome_length_from_header_witness :
    (exCfg.download exEnvShort).1 = .ok (["d", "f"], .download 100) ∧
    ((exCfg.download exEnvShort).2).lookup ["d", "f"] = some (.file [1, 2, 3]) := by
  have h := (c10_outcome_length_from_header exCfg exEnvShort exRespShort exRespShort
    "100" 100 none ["d", "f"] ["d", ".f.tmpAAAAAAAA"]
    rfl rfl rfl (by decide) rfl rfl
    ⟨rfl, rfl, by decide, rfl, rfl, rfl, rfl, by decide⟩).1 rfl
  exact ⟨h.1, h.2.1⟩

/-! ### C3 -/

/-- C3 (amended).  A content-disposition-derived name (preference Require
or Prefer with the header present) takes precedence over the explicit
configured filename; Require with the header absent is an error; Prefer
with the header absent falls through to the explicit configured filename —
but when none is configured, `filename` returns the error "filename
required but no default provided" rather than no derived name (see the
counterexample); the target is treated as a literal file path only when no
filename source is active at all. -/
theorem c3_filename_precedence (c : FileDownload) (r : Response)
    (cd : ParsedContentDisposition) (s f : String) :
    (c.filename_use_content_disposition.bool = true →
      r.content_disposition = some cd →
      filename_from_disposition cd = .ok s →
      c.filename_of r = .ok (some s)) ∧
    (c.filename_use_content_disposition = .require →
      r.content_disposition = none →
      c.filename_of r = .err "No content-disposition header") ∧
    (c.filename_use_content_disposition = .prefer →
      r.content_disposition = none →
      c.filename_use_final_url = .reject →
      c.filename = some f →
      c.filename_of r = .ok (some f)) ∧
    (c.filename_use_content_disposition = .prefer →
      r.content_disposition = none →
      c.filename_use_final_url = .reject →
      c.filename = none →
      c.filename_of r = .err "filename required but no default provided") ∧
    (c.filename_use_content_disposition = .reject →
      c.filename_use_final_url = .reject →
      c.filename = none →
      c.filename_of r = .ok none) := by
  refine ⟨?_, ?_, ?_, ?_, ?_⟩
  · intro hb hcd hfd
    simp [FileDownload.filename_of, hb, hcd, hfd]
  · intro hp hcd
    simp [FileDownload.filename_of, hp, hcd, UsagePref.bool, UsagePref.strict]
  · intro hp hcd hu hf
    simp [FileDownload.filename_of, FileDownload.filename_rest, FileDownload.expect_filename,
      hp, hcd, hu, hf, UsagePref.bool, UsagePref.strict]
  · intro hp hcd hu hf
    simp [FileDownload.filename_of, FileDownload.filename_rest, FileDownload.expect_filename,
      hp, hcd, hu, hf, UsagePref.bool, UsagePref.strict]
  · intro hp hu hf
    simp [FileDownload.filename_of, FileDownload.filename_rest, FileDownload.expect_filename,
      hp, hu, hf, UsagePref.bool]

/-- The C3 fixture: content-disposition preferred but the header absent
and no explicit filename configured. -/
def cfgPrefer : FileDownload :=
  { exCfg with filename_use_content_disposition := .prefer }

/-- C3 counterexample: with preference Prefer, the header absent and no
configured filename, `filename` errors instead of returning no derived
name. -/
theorem c3_prefer_absent_requires_default :
    cfgPrefer.filename_of exResp = .err "filename required but no default provided" ∧
    cfgPrefer.filename_of exResp ≠ .ok none := by
  decide

/-- Witness for C3: Prefer with the header absent falls through to the
configured filename. -/
theorem c3_filename_precedence_witness :
    ({ cfgPrefer with filename := some "x" } : FileDownload).filename_of exResp =
      .ok (some "x") :=
  (c3_filename_precedence { cfgPrefer with filename := some "x" } exResp
    ⟨.attachment, []⟩ "s" "x").2.2.1 rfl rfl rfl rfl

/-! ### C4 -/

/-- C4 (confirmed).  A second `commit` after any first `commit` call is a
no-op returning success; `discard` after a `commit` is a no-op returning
success; and `discard` before any commit removes the TARGET path while
leaving the temp path untouched. -/
theorem c4_commit_discard_idempotent :
    (∀ (s1 r1 s2 r2 : Bool) (af : AtomicFile) (fs : FS),
      AtomicFile.commit s2 r2 (AtomicFile.commit s1 r1 af fs).1
          (AtomicFile.commit s1 r1 af fs).2.1 =
        ((AtomicFile.commit s1 r1 af fs).1, (AtomicFile.commit s1 r1 af fs).2.1, .ok ())) ∧
    (∀ (s1 r1 : Bool) (af : AtomicFile) (fs : FS),
      AtomicFile.discard (AtomicFile.commit s1 r1 af fs).1
          (AtomicFile.commit s1 r1 af fs).2.1 =
        ((AtomicFile.commit s1 r1 af fs).1, (AtomicFile.commit s1 r1 af fs).2.1, .ok ())) ∧
    (∀ (af : AtomicFile) (fs : FS) (entry : Entry),
      af.committed = false → fs.lookup af.target_path = some entry →
      af.temp_path ≠ af.target_path →
      AtomicFile.discard af fs = (af, fs.erase af.target_path, .ok ()) ∧
      (fs.erase af.target_path).lookup af.temp_path = fs.lookup af.temp_path) := by
  refine ⟨?_, ?_, ?_⟩
  · intro s1 r1 s2 r2 af fs
    cases hc : af.committed with
    | true => simp [AtomicFile.commit, hc]
    | false =>
      cases s1 <;> cases r1
      all_goals simp [AtomicFile.commit, hc]
      all_goals cases hl : fs.lookup af.temp_path
      all_goals simp [AtomicFile.commit, hl]
  · intro s1 r1 af fs
    cases hc : af.committed with
    | true => simp [AtomicFile.commit, AtomicFile.discard, hc]
    | false =>
      cases s1 <;> cases r1
      all_goals simp [AtomicFile.commit, AtomicFile.discard, hc]
      all_goals cases hl : fs.lookup af.temp_path
      all_goals simp [AtomicFile.commit, AtomicFile.discard, hl]
  · intro af fs entry hc hl hne
    refine ⟨by simp [AtomicFile.discard, hc, hl], ?_⟩
    exact FS.lookup_erase_ne fs hne

/-- Witness for C4: discard before commit at a concrete state removes the
target binding and leaves the temp binding. -/
theorem c4_commit_discard_idempotent_witness :
    AtomicFile.discard ⟨["t"], ["g"], false⟩ [(["g"], .file [1]), (["t"], .file [2])] =
      (⟨["t"], ["g"], false⟩,
        FS.erase [(["g"], .file [1]), (["t"], .file [2])] ["g"], .ok ()) ∧
    (FS.lookup (FS.erase [(["g"], .file [1]), (["t"], .file [2])] ["g"]) ["t"] =
      FS.lookup [(["g"], .file [1]), (["t"], .file [2])] ["t"]) :=
  c4_commit_discard_idempotent.2.2 ⟨["t"], ["g"], false⟩
    [(["g"], .file [1]), (["t"], .file [2])] (.file [1]) rfl (by decide) (by decide)

/-! ### C5 -/

/-- C5 (amended).  The temp sibling lives in the same directory
(`p.dropLast`), and its filename is a `.`, then the original filename,
then `.tmp`, then the 8-character random alphanumeric suffix — i.e. of the
form `.<original-name>.tmp<8-char-random>`, not
`<original-name>.<8-char-random>.tmp` as claimed (see the
counterexample). -/
theorem c5_temp_sibling_shape (p : Path) (name : String) (rng : Nat → Fin 62)
    (h : p.getLast? = some name) :
    temp_path p rng = some (p.dropLast ++ [temp_filename name rng]) ∧
    temp_filename name rng = "." ++ name ++ ".tmp" ++ String.mk (tempSuffix rng) ∧
    (tempSuffix rng).length = 8 ∧
    (∀ ch ∈ tempSuffix rng, ch.isAlphanum = true) := by
  refine ⟨by simp [temp_path, h], ?_, tempSuffix_length rng, ?_⟩
  · have h2 : ("." : String) ++ "tmp" = ".tmp" := by decide
    rw [temp_filename]
    rw [String.append_assoc, String.append_assoc, ← String.append_assoc ("." : String), h2,
      ← String.append_assoc]
  · intro ch hch
    simp only [tempSuffix, List.mem_map] at hch
    obtain ⟨j, _, rfl⟩ := hch
    exact alphanumeric_isAlphanum (rng j)

/-- C5 counterexample: at target filename `file` with the constant-A
sampler, the temp filename is `.file.tmpAAAAAAAA`; no 8-character suffix
makes it match the claimed shape `file.<8-char>.tmp`. -/
theorem c5_suffix_order :
    temp_filename "file" exRng = ".file.tmpAAAAAAAA" ∧
    ¬ ∃ sfx : List Char, sfx.length = 8 ∧
      (temp_filename "file" exRng).data = "file.".data ++ sfx ++ ".tmp".data := by
  refine ⟨by decide, ?_⟩
  rintro ⟨sfx, hl, he⟩
  have hdata : (temp_filename "file" exRng).data =
      ['.', 'f', 'i', 'l', 'e', '.', 't', 'm', 'p', 'A', 'A', 'A', 'A', 'A', 'A', 'A', 'A'] := by
    decide
  have hfd : ("file." : String).data = ['f', 'i', 'l', 'e', '.'] := by decide
  have htd : (".tmp" : String).data = ['.', 't', 'm', 'p'] := by decide
  rw [hdata, hfd, htd] at he
  have h0 := congrArg (fun l => l.getD 0 'z') he
  simp at h0

/-- Witness for C5: the amended shape at the concrete path `d/f`. -/
theorem c5_temp_sibling_shape_witness :
    temp_path ["d", "f"] exRng = some (["d"] ++ [temp_filename "f" exRng]) ∧
    (tempSuffix exRng).length = 8 := by
  have h := c5_temp_sibling_shape ["d", "f"] "f" exRng rfl
  exact ⟨h.1, h.2.2.1⟩

/-! ### C7 -/

/-- C7 (confirmed).  `filename_from_disposition` succeeds only on an
attachment disposition; it prefers the `filename*` parameter after
stripping the `UTF-8` charset tag and percent-decoding; it falls back to
the percent-decoded plain `filename` parameter whenever that chain yields
nothing; and it errors when neither chain yields a name, or when the
disposition is not an attachment. -/
theorem c7_disposition_filename (x : ParsedContentDisposition) (v s u : String)
    (w : List Char) :
    (∀ s2, filename_from_disposition x = .ok s2 → x.disposition = .attachment) ∧
    (x.disposition = .attachment →
      getParam x.params "filename*" = some v →
      dropPre utf8TagChars v.data = some w →
      percentDecodeUtf8 (String.mk w) = some s →
      filename_from_disposition x = .ok s) ∧
    (x.disposition = .attachment →
      ((getParam x.params "filename*").bind
        (fun i => (dropPre utf8TagChars i.data).map (fun cs => String.mk cs))).bind
        percentDecodeUtf8 = none →
      getParam x.params "filename" = some u →
      percentDecodeUtf8 u = some s →
      filename_from_disposition x = .ok s) ∧
    (x.disposition = .attachment →
      ((getParam x.params "filename*").bind
        (fun i => (dropPre utf8TagChars i.data).map (fun cs => String.mk cs))).bind
        percentDecodeUtf8 = none →
      (getParam x.params "filename").bind percentDecodeUtf8 = none →
      filename_from_disposition x =
        .error "Could not parse a filename from the content-disposition header") ∧
    (x.disposition ≠ .attachment →
      filename_from_disposition x =
        .error "Content-disposition is expected to be an attachment with filename param.") := by
  refine ⟨?_, ?_, ?_, ?_, ?_⟩
  · intro s2 hok
    cases hd : x.disposition with
    | attachment => rfl
    | inlined => rw [filename_from_disposition, hd] at hok; cases hok
    | formdata => rw [filename_from_disposition, hd] at hok; cases hok
    | extension str => rw [filename_from_disposition, hd] at hok; cases hok
  · intro hd hv hw hs
    simp [filename_from_disposition, hd, hv, hw, hs]
  · intro hd hstar hu hs
    simp [filename_from_disposition, hd, hstar, hu, hs]
  · intro hd hstar hplain
    simp [filename_from_disposition, hd, hstar, hplain]
  · intro hd
    cases hx : x.disposition with
    | attachment => exact absurd hx hd
    | inlined => rw [filename_from_disposition, hx]
    | formdata => rw [filename_from_disposition, hx]
    | extension str => rw [filename_from_disposition, hx]

/-- The C7 fixture: a `filename*` value carrying the `UTF-8` charset tag
and a percent-encoded space (built character by character). -/
def exStarValue : String := String.mk (utf8TagChars ++ "a%20b".data)

/-- Witness for C7: the extended parameter decodes to a space-containing
name and wins. -/
theorem c7_disposition_filename_witness :
    filename_from_disposition ⟨.attachment, [("filename*", exStarValue)]⟩ = .ok "a b" :=
  (c7_disposition_filename ⟨.attachment, [("filename*", exStarValue)]⟩ exStarValue
    "a b" "u" "a%20b".data).2.1 rfl (by decide) (by decide) (by decide)

/-! ### C8 -/

/-- The preflight condition as the design document words it: the preflight
flag is set AND (either filename-source preference is Require or Prefer,
or the overwrite behaviour is CheckLength). -/
def shouldPreflightSpec (c : FileDownload) : Bool :=
  c.preflight_head &&
    ((decide (c.filename_use_content_disposition = .require) ||
      decide (c.filename_use_content_disposition = .prefer)) ||
     (decide (c.filename_use_final_url = .require) ||
      decide (c.filename_use_final_url = .prefer)) ||
     decide (c.overwrite = .checkLength))

/-- C8 (confirmed).  `should_preflight` agrees with the specification
wording on every configuration. -/
theorem c8_should_preflight_iff : ∀ c : FileDownload, c.should_preflight = shouldPreflightSpec c := by
  intro c
  obtain ⟨t, u, tg, ph, ow, cdp, fup, fn⟩ := c
  cases ph <;> cases ow <;> cases cdp <;> cases fup <;> rfl

/-! ### C9 -/

/-- C9 (confirmed).  When `commit` itself fails (failing `sync_all` or
rename), the object is nevertheless committed: the filesystem is
unchanged, every later `commit` and `discard` is a success no-op, and the
drop cleanup leaves the temp file on disk. -/
theorem c9_commit_failure_committed_state (s r : Bool) (af : AtomicFile) (fs : FS)
    (entry : Entry)
    (hc : af.committed = false)
    (hfail : s = true ∨ r = true)
    (htmp : fs.lookup af.temp_path = some entry) :
    (∃ e, (AtomicFile.commit s r af fs).2.2 = .error e) ∧
    ((AtomicFile.commit s r af fs).1).committed = true ∧
    (AtomicFile.commit s r af fs).2.1 = fs ∧
    (∀ s2 r2, AtomicFile.commit s2 r2 (AtomicFile.commit s r af fs).1 fs =
      ((AtomicFile.commit s r af fs).1, fs, .ok ())) ∧
    (AtomicFile.discard (AtomicFile.commit s r af fs).1 fs =
      ((AtomicFile.commit s r af fs).1, fs, .ok ())) ∧
    ((AtomicFile.dropCleanup (AtomicFile.commit s r af fs).1 fs).lookup af.temp_path =
      some entry) := by
  cases s with
  | true =>
    refine ⟨⟨"sync_all failed", ?_⟩, ?_, ?_, ?_, ?_, ?_⟩ <;>
      simp [AtomicFile.commit, AtomicFile.discard, AtomicFile.dropCleanup, hc, htmp]
  | false =>
    cases r with
    | true =>
      refine ⟨⟨"rename failed", ?_⟩, ?_, ?_, ?_, ?_, ?_⟩ <;>
        simp [AtomicFile.commit, AtomicFile.discard, AtomicFile.dropCleanup, hc, htmp]
    | false =>
      rcases hfail with h | h <;> cases h

/-- Witness for C9: a failing sync at a concrete state. -/
theorem c9_commit_failure_committed_state_witness :
    (AtomicFile.commit true false ⟨["t"], ["g"], false⟩ [(["t"], .file [5])]).2.1 =
      [(["t"], .file [5])] ∧
    ((AtomicFile.dropCleanup
        (AtomicFile.commit true false ⟨["t"], ["g"], false⟩ [(["t"], .file [5])]).1
        [(["t"], .file [5])]).lookup ["t"] = some (.file [5])) := by
  have h := c9_commit_failure_committed_state true false ⟨["t"], ["g"], false⟩
    [(["t"], .file [5])] (.file [5]) rfl (Or.inl rfl) (by decide)
  exact ⟨h.2.2.1, h.2.2.2.2.2⟩

/-! ### C6: orchestrator lemmas -/

/-- The tasks `Operation::run` spawns for a list of items, one per item in
order, with their permit indices. -/
def spawnList (oenv : OpEnv) : List FileDownload → Nat → List (RunRes Unit × List String)
  | [], _ => []
  | item :: rest, i => create_task item (oenv.dlEnv i) :: spawnList oenv rest (i + 1)

theorem spawnList_length (oenv : OpEnv) (l : List FileDownload) (i : Nat) :
    (spawnList oenv l i).length = l.length := by
  induction l generalizing i with
  | nil => rfl
  | cons item rest ih => simp [spawnList, ih]

theorem spawnList_get? (oenv : OpEnv) (l : List FileDownload) (i k : Nat) :
    (spawnList oenv l i).get? k =
      (l.get? k).map (fun item => create_task item (oenv.dlEnv (i + k))) := by
  induction l generalizing i k with
  | nil => simp [spawnList]
  | cons item rest ih =>
    cases k with
    | zero => simp [spawnList]
    | succ k2 =>
      simp only [spawnList, List.get?_cons_succ]
      rw [ih (i + 1) k2, show i + 1 + k2 = i + (k2 + 1) by omega]

theorem runSpawn_eq_ok (oenv : OpEnv) (l : List FileDownload) (i : Nat)
    (h : ∀ j, j < l.length → oenv.acquireOk (i + j) = true) :
    runSpawn oenv l i = (.ok (), spawnList oenv l i) := by
  induction l generalizing i with
  | nil => rfl
  | cons item rest ih =>
    have h0 : oenv.acquireOk i = true := by simpa using h 0 (by simp)
    have hrest : ∀ j, j < rest.length → oenv.acquireOk (i + 1 + j) = true := by
      intro j hj
      have h2 := h (j + 1) (by simp only [List.length_cons]; omega)
      rw [show i + 1 + j = i + (j + 1) by omega]
      exact h2
    simp [runSpawn, h0, spawnList, ih (i + 1) hrest]

theorem runSpawn_err (oenv : OpEnv) (l : List FileDownload) (i : Nat) (e : String)
    (h : (runSpawn oenv l i).1 = .error e) :
    ∃ j, j < l.length ∧ oenv.acquireOk (i + j) = false := by
  induction l generalizing i with
  | nil => simp [runSpawn] at h
  | cons item rest ih =>
    by_cases ha : oenv.acquireOk i
    · rcases hsp : runSpawn oenv rest (i + 1) with ⟨res, hs⟩
      have h2 : (runSpawn oenv rest (i + 1)).1 = .error e := by
        rw [hsp]
        simpa [runSpawn, ha, hsp] using h
      obtain ⟨j, hj, hja⟩ := ih (i + 1) h2
      refine ⟨j + 1, by simp only [List.length_cons]; omega, ?_⟩
      rw [show i + (j + 1) = i + 1 + j by omega]
      exact hja
    · exact ⟨0, by simp, by simpa using ha⟩

theorem runSpawn_ok_snd (oenv : OpEnv) (l : List FileDownload) (i : Nat)
    (h : (runSpawn oenv l i).1 = .ok ()) :
    (runSpawn oenv l i).2 = spawnList oenv l i := by
  induction l generalizing i with
  | nil => rfl
  | cons item rest ih =>
    by_cases ha : oenv.acquireOk i
    · rcases hsp : runSpawn oenv rest (i + 1) with ⟨res, hs⟩
      have h2 : (runSpawn oenv rest (i + 1)).1 = .ok () := by
        rw [hsp]
        simpa [runSpawn, ha, hsp] using h
      have h3 := ih (i + 1) h2
      rw [hsp] at h3
      simp [runSpawn, ha, hsp, spawnList, h3]
    · simp [runSpawn, ha] at h

theorem create_task_fst (item : FileDownload) (denv : Env) :
    (create_task item denv).1 = .panicked ↔ (item.download denv).1 = .panicked := by
  rcases h : (item.download denv).1 <;> simp [create_task, h]

theorem runJoin_ok (oenv : OpEnv) (hs : List (RunRes Unit)) (j : Nat)
    (hjoin : ∀ k, k < hs.length → oenv.joinOk (j + k) = true)
    (hp : ∀ x ∈ hs, x ≠ .panicked) :
    runJoin oenv hs j = .ok () := by
  induction hs generalizing j with
  | nil => rfl
  | cons x rest ih =>
    have hj0 : oenv.joinOk j = true := by simpa using hjoin 0 (by simp)
    have hrest : ∀ k, k < rest.length → oenv.joinOk (j + 1 + k) = true := by
      intro k hk
      have h2 := hjoin (k + 1) (by simp only [List.length_cons]; omega)
      rw [show j + 1 + k = j + (k + 1) by omega]
      exact h2
    have hprest : ∀ x2 ∈ rest, x2 ≠ .panicked :=
      fun x2 hx => hp x2 (List.mem_cons_of_mem _ hx)
    cases x with
    | panicked => exact absurd rfl (hp _ (List.mem_cons_self _ _))
    | ok u => simp [runJoin, hj0, ih (j + 1) hrest hprest]
    | err e2 => simp [runJoin, hj0, ih (j + 1) hrest hprest]

theorem runJoin_err (oenv : OpEnv) (hs : List (RunRes Unit)) (j : Nat) (e : String)
    (h : runJoin oenv hs j = .error e) :
    ∃ k x, hs.get? k = some x ∧ (x = .panicked ∨ oenv.joinOk (j + k) = false) := by
  induction hs generalizing j with
  | nil => simp [runJoin] at h
  | cons x rest ih =>
    cases x with
    | panicked => exact ⟨0, .panicked, by simp, Or.inl rfl⟩
    | ok u =>
      by_cases hj : oenv.joinOk j
      · have h2 : runJoin oenv rest (j + 1) = .error e := by simpa [runJoin, hj] using h
        obtain ⟨k, x2, hget, hcase⟩ := ih (j + 1) h2
        refine ⟨k + 1, x2, by simpa using hget, ?_⟩
        rcases hcase with hc | hc
        · exact Or.inl hc
        · refine Or.inr ?_
          rw [show j + (k + 1) = j + 1 + k by omega]
          exact hc
      · exact ⟨0, .ok u, by simp, Or.inr (by simpa using hj)⟩
    | err e2 =>
      by_cases hj : oenv.joinOk j
      · have h2 : runJoin oenv rest (j + 1) = .error e := by simpa [runJoin, hj] using h
        obtain ⟨k, x2, hget, hcase⟩ := ih (j + 1) h2
        refine ⟨k + 1, x2, by simpa using hget, ?_⟩
        rcases hcase with hc | hc
        · exact Or.inl hc
        · refine Or.inr ?_
          rw [show j + (k + 1) = j + 1 + k by omega]
          exact hc
      · exact ⟨0, .err e2, by simp, Or.inr (by simpa using hj)⟩

/-- C6 (confirmed).  When the machinery is healthy (every permit acquire
and every join succeeds, and no task panics), `Operation::run` returns
success even when some or all downloads fail, and every failed item's
error is reported on the shared surface; conversely a run-level error can
only come from a failed acquire, a failed join, or a panicked task. -/
theorem c6_failure_isolation (items : List FileDownload) (oenv : OpEnv) :
    ((∀ i, i < items.length → oenv.acquireOk i = true) →
     (∀ i, i < items.length → oenv.joinOk i = true) →
     (∀ i item, items.get? i = some item → (item.download (oenv.dlEnv i)).1 ≠ .panicked) →
     (Operation.run items oenv).1 = .ok ()) ∧
    ((∀ i, i < items.length → oenv.acquireOk i = true) →
     ∀ i item e, items.get? i = some item →
       (item.download (oenv.dlEnv i)).1 = .err e →
       ("Error downloading " ++ item.title.getD item.url ++ ": " ++ e) ∈
         (Operation.run items oenv).2) ∧
    (∀ e, (Operation.run items oenv).1 = .error e →
      ∃ i item, items.get? i = some item ∧
        (oenv.acquireOk i = false ∨ oenv.joinOk i = false ∨
          (item.download (oenv.dlEnv i)).1 = .panicked)) := by
  refine ⟨?_, ?_, ?_⟩
  · intro hacq hjoin hnp
    have hsp := runSpawn_eq_ok oenv items 0
      (fun j hj => by simpa using hacq j hj)
    rw [Operation.run, hsp]
    simp only []
    apply runJoin_ok
    · intro k hk
      rw [List.length_map, spawnList_length] at hk
      simpa using hjoin k hk
    · intro x hx
      rw [List.mem_map] at hx
      obtain ⟨p, hmem, rfl⟩ := hx
      rw [List.mem_iff_get?] at hmem
      obtain ⟨k, hget⟩ := hmem
      rw [spawnList_get? oenv items 0 k] at hget
      cases hitem : items.get? k with
      | none => rw [hitem] at hget; cases hget
      | some item =>
        rw [hitem] at hget
        simp only [Option.map_some'] at hget
        cases hget
        intro hpan
        rw [create_task_fst] at hpan
        simp only [Nat.zero_add] at hpan
        exact hnp k item hitem hpan
  · intro hacq i item e hget hdl
    have hsp := runSpawn_eq_ok oenv items 0
      (fun j hj => by simpa using hacq j hj)
    rw [Operation.run, hsp]
    simp only []
    rw [List.mem_flatten]
    refine ⟨(create_task item (oenv.dlEnv i)).2, ?_, ?_⟩
    · rw [List.mem_map]
      refine ⟨create_task item (oenv.dlEnv i), ?_, rfl⟩
      have hg2 := spawnList_get? oenv items 0 i
      rw [hget] at hg2
      simp only [Option.map_some', Nat.zero_add] at hg2
      exact List.get?_mem hg2
    · simp [create_task, hdl]
  · intro e herr
    rcases hsp : runSpawn oenv items 0 with ⟨res, hs⟩
    rw [Operation.run, hsp] at herr
    cases res with
    | error e2 =>
      have h2 : (runSpawn oenv items 0).1 = .error e2 := by rw [hsp]
      obtain ⟨j, hj, hja⟩ := runSpawn_err oenv items 0 e2 h2
      rw [Nat.zero_add] at hja
      refine ⟨j, items.get ⟨j, hj⟩, ?_, Or.inl hja⟩
      exact List.get?_eq_get hj
    | ok u =>
      have h1 : (runSpawn oenv items 0).1 = .ok () := by rw [hsp]
      have h2 := runSpawn_ok_snd oenv items 0 h1
      rw [hsp] at h2
      simp only [] at herr h2
      rw [h2] at herr
      obtain ⟨k, x, hget, hcase⟩ := runJoin_err oenv _ 0 e herr
      rw [List.get?_map, spawnList_get? oenv items 0 k] at hget
      cases hitem : items.get? k with
      | none => rw [hitem] at hget; cases hget
      | some item =>
        rw [hitem] at hget
        simp only [Option.map_some', Nat.zero_add] at hget
        cases hget
        refine ⟨k, item, hitem, ?_⟩
        rcases hcase with hc | hc
        · exact Or.inr (Or.inr ((create_task_fst item (oenv.dlEnv k)).mp hc))
        · rw [Nat.zero_add] at hc
          exact Or.inr (Or.inl hc)

/-- The C6 fixture: two items, the second of which hits an existing file
under the `Fail` overwrite policy and therefore errors. -/
def exItems : List FileDownload := [exCfg, { exCfg with overwrite := .fail }]

/-- The C6 orchestration environment: healthy machinery; the second item's
world has the destination already present. -/
def exOpEnv : OpEnv :=
  { dlEnv := fun i => if i = 1 then exEnvExisting else exEnv,
    acquireOk := fun _ => true, joinOk := fun _ => true }

/-- Witness for C6: one failing item does not fail the run, and its error
line is reported. -/
theorem c6_failure_isolation_witness :
    (Operation.run exItems exOpEnv).1 = .ok () ∧
    ("Error downloading " ++ "http target" ++ ": " ++ "File already exists. failing!") ∈
      (Operation.run exItems exOpEnv).2 := by
  have h := c6_failure_isolation exItems exOpEnv
  constructor
  · apply h.1 (fun i _ => rfl) (fun i _ => rfl)
    intro i item hget
    match i with
    | 0 =>
      cases hget
      decide
    | 1 =>
      cases hget
      decide
    | (n + 2) => cases hget
  · have h2 := h.2.1 (fun i _ => rfl) 1 { exCfg with overwrite := .fail }
      "File already exists. failing!" rfl (by decide)
    simpa using h2

end Dlcommon
